import Mathlib

/-!
Verification of the relay server (`src/main.go`, `src/srv/service.go`).

The connection handler `Service.HandleConnection` is embedded as a state
machine: each call to `bufio.Reader.ReadString('\n')` yields one
`ReadResult`, and `step` performs the handler's reaction to that result,
accumulating the externally observable effects (bytes written back to the
client, spool-file creation/writes/removal, process spawns) as a trace of
events.  `run` folds `step` over a whole sequence of read results starting
from the initial handler state.

Filesystem, temporary-file and subprocess behaviour is supplied by per-cycle
oracles (`CycleEnv`), one per script-transfer cycle, mirroring exactly the
points where the Go code consults `os.CreateTemp`, `File.WriteString` and
`exec.Cmd`.
-/

namespace Relay

/-- A protocol line, as raw characters (Go manipulates lines as strings and
compares raw bytes; `List Char` keeps the byte-for-byte reasoning exact). -/
abbrev Line := List Char

/-- Result of one `reader.ReadString('\n')` call (service.go:129, 162):
`ok line` is a successful read (the line includes its trailing newline),
`eofR part` is a clean end-of-stream (`io.EOF`) with any partial data read,
`errR part msg` is any other read error with any partial data read. -/
inductive ReadResult where
  | ok (line : Line)
  | eofR (part : Line)
  | errR (part : Line) (msg : String)
deriving DecidableEq

/-- Outcome of the `exec.Cmd` used for one cycle (service.go:204-222):
whether `cmd.Start()` succeeded, the captured stdout/stderr bytes, and
`cmd.Wait()`'s error (`none` = the process exited successfully). -/
structure ExecResult where
  startOk : Bool
  startMsg : String
  stdout : List Nat
  stderr : List Nat
  waitErr : Option String

/-- Per-cycle oracle: the result of `os.CreateTemp` (error message or the
fresh file name), the success of each successive `WriteString` call on the
spool file, and the process outcome. -/
structure CycleEnv where
  tempResult : Except String String
  writeOk : Nat → Bool
  writeMsg : String
  exec : ExecResult

/-- The `Service` fields the handler reads: the resolved interpreter path
`cmd` and the `expo` export map (service.go:19-28); the map is embedded as
an association list with the iteration order fixed. -/
structure ServiceCfg where
  cmd : String
  expo : List (String × String)

/-- Externally observable effects of the handler, in order of occurrence. -/
inductive Ev where
  | connErr (msg : String)
  | connData (bytes : List Nat)
  | create (name : String)
  | writeLine (name : String) (line : Line)
  | remove (name : String)
  | spawn (cmd : String) (script : String) (env : Option (List String))
deriving DecidableEq

/-- `export` slice built at service.go:199-202: one `NAME=VALUE` entry per
export-map entry. -/
def exportList (expo : List (String × String)) : List String :=
  expo.map (fun kv => kv.1 ++ "=" ++ kv.2)

/-- Go slice semantics of `cmd.Env = append(cmd.Env, export...)`
(service.go:207): `cmd.Env` starts as the nil slice, and appending zero
elements to a nil slice leaves it nil, so the field stays nil exactly when
`export` is empty. -/
def goAppendNil (xs : List String) : Option (List String) :=
  if xs.isEmpty then none else some xs

/-- `os/exec` semantics: if `cmd.Env` is nil, the spawned process inherits
the parent process's environment; otherwise it receives exactly `cmd.Env`. -/
def effectiveEnv (cmdEnv : Option (List String)) (parentEnv : List String) :
    List String :=
  cmdEnv.getD parentEnv

/-- Line trimming at service.go:176-179: strip one trailing newline if the
line has one. -/
def trimNL (l : Line) : Line :=
  if l.getLast? = some '\n' then l.dropLast else l

/-- Handler control state: `awaitMarker` is the top of the outer loop
(service.go:128), `receiving marker name e k` is the spool loop
(service.go:161) with the cycle's marker, spool-file name, cycle oracle and
count of successful writes so far, and `closedConn err` means the handler
has returned `err`. -/
inductive Mode where
  | awaitMarker
  | receiving (marker : Line) (name : String) (e : CycleEnv) (k : Nat)
  | closedConn (err : Option String)

/-- Full handler state: control mode, next cycle-oracle index, the stack of
deferred `os.Remove` calls (service.go:159), and the event trace so far. -/
structure St where
  mode : Mode
  cycle : Nat
  defs : List String
  evs : List Ev

/-- Running the deferred `os.Remove(tmpFile.Name())` calls registered so
far, in LIFO order, as happens when the handler returns. -/
def flushDefers (defs : List String) : List Ev :=
  defs.map Ev.remove

/-- One reaction of `HandleConnection` (service.go:125-249) to the result of
a single `ReadString` call. -/
def step (s : ServiceCfg) (cenv : Nat → CycleEnv) (st : St) (r : ReadResult) :
    St :=
  match st.mode with
  | .closedConn _ => st
  | .awaitMarker =>
    match r with
    | .eofR _ =>
      -- service.go:131,140: clean EOF, silent close
      ⟨.closedConn none, st.cycle, st.defs, st.evs ++ flushDefers st.defs⟩
    | .errR _ m =>
      -- service.go:132-140: error line, then close
      ⟨.closedConn none, st.cycle, st.defs,
        st.evs ++ [Ev.connErr ("error: failed to read EOF marker: " ++ m)]
          ++ flushDefers st.defs⟩
    | .ok line =>
      -- service.go:143: strip the newline read by ReadString
      let marker := line.dropLast
      if marker = [] then st  -- service.go:144-146: ignore empty marker
      else
        match (cenv st.cycle).tempResult with
        | .error m =>
          -- service.go:148-158: temp-file failure is the one non-nil return
          ⟨.closedConn (some m), st.cycle, st.defs,
            st.evs
              ++ [Ev.connErr ("error: failed to create temp file: " ++ m)]
              ++ flushDefers st.defs⟩
        | .ok name =>
          ⟨.receiving marker name (cenv st.cycle) 0, st.cycle + 1,
            name :: st.defs, st.evs ++ [Ev.create name]⟩
  | .receiving marker name e k =>
    match r with
    | .eofR _ =>
      -- service.go:163-174 with io.EOF: silent close
      ⟨.closedConn none, st.cycle, st.defs, st.evs ++ flushDefers st.defs⟩
    | .errR _ m =>
      ⟨.closedConn none, st.cycle, st.defs,
        st.evs ++ [Ev.connErr ("error: failed to read script: " ++ m)]
          ++ flushDefers st.defs⟩
    | .ok line =>
      if trimNL line = marker then
        -- service.go:181-183 break, then 197-247: execute the script
        if e.exec.startOk then
          ⟨(match e.exec.waitErr with
             | some _ => .awaitMarker
             | none => .closedConn none),
           st.cycle, st.defs,
           st.evs
             ++ [Ev.spawn s.cmd name (goAppendNil (exportList s.expo))]
             ++ (if 0 < e.exec.stdout.length
                 then [Ev.connData e.exec.stdout] else [])
             ++ (if 0 < e.exec.stderr.length
                 then [Ev.connData e.exec.stderr] else [])
             ++ [Ev.remove name]
             ++ (match e.exec.waitErr with
                 | some m =>
                   [Ev.connErr ("error: script execution failed: " ++ m)]
                 | none => flushDefers st.defs)⟩
        else
          -- service.go:209-218: start failure closes the connection
          ⟨.closedConn none, st.cycle, st.defs,
            st.evs
              ++ [Ev.connErr
                    ("error: failed to start shell: " ++ e.exec.startMsg)]
              ++ flushDefers st.defs⟩
      else
        if e.writeOk k then
          -- service.go:185: append the line verbatim to the spool file
          ⟨.receiving marker name e (k + 1), st.cycle, st.defs,
            st.evs ++ [Ev.writeLine name line]⟩
        else
          -- service.go:185-194: write failure closes the connection
          ⟨.closedConn none, st.cycle, st.defs,
            st.evs
              ++ [Ev.connErr
                    ("error: failed to write script: " ++ e.writeMsg)]
              ++ flushDefers st.defs⟩

/-- Initial handler state on accept. -/
def st0 : St := ⟨.awaitMarker, 0, [], []⟩

/-- The whole handler, driven by a finite sequence of read results. -/
def run (s : ServiceCfg) (cenv : Nat → CycleEnv) (reads : List ReadResult) :
    St :=
  reads.foldl (step s cenv) st0

/-! ## Listener loop (`Service.ListenAndServe`, service.go:68-123) -/

/-- Result of one `ln.Accept()` call: a connection (identified by a number)
or an accept error. -/
inductive AcceptRes where
  | conn (id : Nat)
  | aerr (msg : String)
deriving DecidableEq

/-- One accept-loop iteration observes the accept result together with
whether `ctx.Done()` had fired when the `select` at service.go:95 ran. -/
abbrev LoopStep := AcceptRes × Bool

/-- The accept loop (service.go:92-122): per iteration, the `ctx.Done()`
branch returns nil first; otherwise an accept error is logged and the loop
continues, and a connection is dispatched to a handler task and the loop
continues.  Result: `none` = still looping when the observations ran out,
`some err` = returned with error `err`; the second component lists the
dispatched connections. -/
def listenLoop : List LoopStep → Option (Option String) × List Nat
  | [] => (none, [])
  | (a, done) :: rest =>
    if done then (some none, [])
    else
      match a with
      | .aerr _ => listenLoop rest
      | .conn i =>
        let r := listenLoop rest
        (r.1, i :: r.2)

/-- `ListenAndServe` (service.go:68-123): a bind failure (`bindErr`) is
returned immediately; otherwise the result is the accept loop's. -/
def listenAndServe (bindErr : Option String) (steps : List LoopStep) :
    Option (Option String) :=
  match bindErr with
  | some e => some (some e)
  | none => (listenLoop steps).1

/-! ## Shell resolution (`resolveShell`, main.go:129-159, and `srv.Make`,
service.go:30-66) -/

/-- Result of the `os.Stat` call at main.go:139: success, the
`os.IsNotExist` case, or any other stat error. -/
inductive StatRes where
  | okS
  | notExist
  | errS (msg : String)
deriving DecidableEq

/-- Filesystem oracle for `resolveShell`: `stat` models `os.Stat`,
`lookPath` models `exec.LookPath` (PATH search for bare names, direct check
for names containing a separator), `absOf` models `filepath.Abs`. -/
structure FS where
  stat : String → StatRes
  lookPath : String → Option String
  absOf : String → Option String

/-- `unicode.IsSpace` on the characters `strings.TrimSpace` strips (the
ASCII portion suffices for the embedding). -/
def isSpaceChar (c : Char) : Bool :=
  c = ' ' ∨ c = '\t' ∨ c = '\n' ∨ c = '\r' ∨ c = '\x0b' ∨ c = '\x0c'

/-- `strings.TrimSpace` (main.go:130). -/
def goTrimSpace (s : String) : String :=
  ⟨((s.data.dropWhile isSpaceChar).reverse.dropWhile isSpaceChar).reverse⟩

/-- `filepath.IsAbs` on Unix: the path starts with `/`. -/
def isAbsPath (s : String) : Bool :=
  s.data.head? = some '/'

/-- `resolveShell` (main.go:129-159). -/
def resolveShell (fs : FS) (shell : String) : Except String String :=
  let t := goTrimSpace shell
  if t = "" then .error "shell name is empty"
  else if isAbsPath t then .ok t
  else
    match fs.stat t with
    | .notExist =>
      match fs.lookPath t with
      | some path => .ok path
      | none => .error ("shell " ++ t ++ " not found")
    | .errS m => .error ("failed to stat " ++ t ++ ": " ++ m)
    | .okS =>
      match fs.absOf t with
      | some a => .ok a
      | none => .error ("cannot resolve path " ++ t)

/-- `srv.Make` (service.go:30-66): construction of a `Service` fails when
`exec.LookPath` cannot resolve the shell. -/
def makeService (lookPath : String → Option String) (shell : String)
    (expo : List (String × String)) : Except String ServiceCfg :=
  match lookPath shell with
  | none => .error ("shell " ++ shell ++ " not found")
  | some path => .ok ⟨path, expo⟩

/-! ## Generic lemmas about the handler state machine -/

/-- A state invariant preserved by `step` holds after folding any read
sequence. -/
theorem foldl_inv {α β : Type} (f : β → α → β) (P : β → Prop)
    (hstep : ∀ b a, P b → P (f b a)) :
    ∀ (l : List α) (b : β), P b → P (l.foldl f b)
  | [], _, h => h
  | a :: l, b, h => foldl_inv f P hstep l (f b a) (hstep b a h)

/-- Once the handler has returned, further reads change nothing. -/
theorem step_closed (s : ServiceCfg) (cenv : Nat → CycleEnv) (st : St)
    (r : ReadResult) (e : Option String) (h : st.mode = .closedConn e) :
    step s cenv st r = st := by
  unfold step
  rw [h]

/-- Folding from a returned handler state is the identity. -/
theorem foldl_closed (s : ServiceCfg) (cenv : Nat → CycleEnv)
    (e : Option String) :
    ∀ (rs : List ReadResult) (st : St), st.mode = .closedConn e →
      rs.foldl (step s cenv) st = st
  | [], _, _ => rfl
  | r :: rs, st, h => by
    rw [List.foldl_cons, step_closed s cenv st r e h,
      foldl_closed s cenv e rs st h]


/-! ## Helper definitions for stating the claims -/

/-- Projection selecting raw output bytes relayed to the client. -/
def evData : Ev → Option (List Nat)
  | .connData b => some b
  | _ => none

/-- The sequence of raw byte chunks written back to the client, in order. -/
def dataEvents (evs : List Ev) : List (List Nat) :=
  evs.filterMap evData

theorem dataEvents_append (a b : List Ev) :
    dataEvents (a ++ b) = dataEvents a ++ dataEvents b := by
  simp [dataEvents]

theorem dataEvents_flush (ds : List String) :
    dataEvents (flushDefers ds) = [] := by
  induction ds with
  | nil => rfl
  | cons d ds ih => simp [flushDefers, dataEvents, evData, ih]

/-- C2: for every completed execution cycle, a non-zero exit status makes
the handler write a `script execution failed` error line to the client and
transition back to AwaitMarker on the same connection (further cycles
possible), while a successful exit makes the handler return, after which no
further reads have any effect (the connection is closed). -/
theorem C2_exit_status_decision (s : ServiceCfg) (cenv : Nat → CycleEnv) (st : St)
    (marker : Line) (name : String) (e : CycleEnv) (k : Nat) (line : Line)
    (hmode : st.mode = .receiving marker name e k)
    (hline : trimNL line = marker)
    (hstart : e.exec.startOk = true) :
    (∀ m, e.exec.waitErr = some m →
      (step s cenv st (.ok line)).mode = .awaitMarker ∧
      Ev.connErr ("error: script execution failed: " ++ m)
        ∈ (step s cenv st (.ok line)).evs) ∧
    (e.exec.waitErr = none →
      (step s cenv st (.ok line)).mode = .closedConn none ∧
      ∀ rs : List ReadResult,
        rs.foldl (step s cenv) (step s cenv st (.ok line))
          = step s cenv st (.ok line)) := by
  obtain ⟨mo, cy, ds, evs⟩ := st
  simp only at hmode
  subst hmode
  constructor
  · intro m hm
    simp [step, hline, hstart, hm]
  · intro hnone
    have hmode2 : (step s cenv ⟨.receiving marker name e k, cy, ds, evs⟩
        (.ok line)).mode = .closedConn none := by
      simp [step, hline, hstart, hnone]
    exact ⟨hmode2, fun rs => foldl_closed s cenv none rs _ hmode2⟩

/-- C4: if a socket read fails before the cycle's closing marker arrived
(while awaiting the marker or while receiving the script), a clean
end-of-stream closes the connection silently (only the deferred spool
removals happen, no error line), and any other read failure writes exactly
one error line and closes; in both cases no process is spawned for that
cycle (the appended events contain no spawn). -/
theorem C4_read_failure_closes (s : ServiceCfg) (cenv : Nat → CycleEnv) (st : St)
    (p : Line) (msg : String)
    (hmode : st.mode = .awaitMarker ∨
      ∃ marker name e k, st.mode = .receiving marker name e k) :
    ((step s cenv st (.eofR p)).mode = .closedConn none ∧
     (step s cenv st (.eofR p)).evs = st.evs ++ flushDefers st.defs) ∧
    ((step s cenv st (.errR p msg)).mode = .closedConn none ∧
     ∃ em, (step s cenv st (.errR p msg)).evs
        = st.evs ++ [Ev.connErr em] ++ flushDefers st.defs) := by
  obtain ⟨mo, cy, ds, evs⟩ := st
  simp only at hmode
  rcases hmode with h | ⟨marker, name, e, k, h⟩ <;> subst h <;>
    exact ⟨⟨rfl, rfl⟩, rfl, _, rfl⟩

/-- C6: in every execution cycle the bytes relayed to the client are all
captured stdout bytes first, then all captured stderr bytes, each chunk
written only if it is non-empty. -/
theorem C6_relay_order (s : ServiceCfg) (cenv : Nat → CycleEnv) (st : St)
    (marker : Line) (name : String) (e : CycleEnv) (k : Nat) (line : Line)
    (hmode : st.mode = .receiving marker name e k)
    (hline : trimNL line = marker)
    (hstart : e.exec.startOk = true) :
    dataEvents (step s cenv st (.ok line)).evs
      = dataEvents st.evs
        ++ (if e.exec.stdout = [] then [] else [e.exec.stdout])
        ++ (if e.exec.stderr = [] then [] else [e.exec.stderr]) := by
  obtain ⟨mo, cy, ds, evs⟩ := st
  simp only at hmode
  subst hmode
  rcases hw : e.exec.waitErr with _ | m <;>
    rcases ho : e.exec.stdout with _ | ⟨x, xs⟩ <;>
    rcases he : e.exec.stderr with _ | ⟨y, ys⟩ <;>
    simp [step, hline, hstart, hw, ho, he, dataEvents_append, dataEvents,
      evData, flushDefers, List.filterMap_map, Function.comp]

/-- C10: a stream ending mid-line (clean end-of-stream with a partial final
line) behaves identically for every partial-line content: the partial line
is never compared against the marker, never written to the spool file,
triggers no execution, and the handler closes silently exactly as on a
clean end-of-stream with no partial data. -/
theorem C10_partial_line_discarded (s : ServiceCfg) (cenv : Nat → CycleEnv) (st : St)
    (p q : Line)
    (hmode : st.mode = .awaitMarker ∨
      ∃ marker name e k, st.mode = .receiving marker name e k) :
    step s cenv st (.eofR p) = step s cenv st (.eofR q) ∧
    (step s cenv st (.eofR p)).mode = .closedConn none ∧
    (step s cenv st (.eofR p)).evs = st.evs ++ flushDefers st.defs := by
  obtain ⟨mo, cy, ds, evs⟩ := st
  simp only at hmode
  rcases hmode with h | ⟨marker, name, e, k, h⟩ <;> subst h <;>
    exact ⟨rfl, rfl, rfl⟩

/-- C5 helper -/
theorem listenLoop_done (steps : List LoopStep)
    (h : ∃ x ∈ steps, x.2 = true) :
    (listenLoop steps).1 = some none := by
  induction steps with
  | nil => simp at h
  | cons a rest ih =>
    obtain ⟨ar, d⟩ := a
    cases d with
    | true => simp [listenLoop]
    | false =>
      have hrest : ∃ x ∈ rest, x.2 = true := by
        obtain ⟨x, hx, hx2⟩ := h
        rcases List.mem_cons.mp hx with h1 | h2
        · subst h1; simp at hx2
        · exact ⟨x, h2, hx2⟩
      cases ar with
      | aerr m => simpa [listenLoop] using ih hrest
      | conn i =>
        simp only [listenLoop]
        exact ih hrest

/-- C5: once the cancellation signal has fired at some iteration of the
accept loop, the loop exits and `ListenAndServe` returns no error,
regardless of whether the in-flight accept produced a connection or an
error. -/
theorem C5_cancellation_returns_nil (steps : List LoopStep)
    (h : ∃ x ∈ steps, x.2 = true) :
    listenAndServe none steps = some none := by
  show (listenLoop steps).1 = some none
  exact listenLoop_done steps h

/-- C8: shell resolution returns an absolute path as-is; a relative path
that stats successfully is made absolute; a name whose stat reports
not-exist is searched on the executable search path; a name none of these
resolve yields an error, and `srv.Make` aborts Service construction when
its lookup fails. -/
theorem C8_shell_resolution (fs : FS) (s : String)
    (ht : goTrimSpace s = s) (hne : s ≠ "") :
    (isAbsPath s = true → resolveShell fs s = .ok s) ∧
    (isAbsPath s = false → fs.stat s = .okS →
      ∀ a, fs.absOf s = some a → resolveShell fs s = .ok a) ∧
    (isAbsPath s = false → fs.stat s = .notExist →
      ∀ path, fs.lookPath s = some path → resolveShell fs s = .ok path) ∧
    (isAbsPath s = false → fs.stat s = .notExist → fs.lookPath s = none →
      ∃ e, resolveShell fs s = .error e) ∧
    (∀ lp sh expo, lp sh = none → ∃ e, makeService lp sh expo = .error e) := by
  refine ⟨?_, ?_, ?_, ?_, ?_⟩
  · intro habs
    simp [resolveShell, ht, hne, habs]
  · intro habs hstat a ha
    simp [resolveShell, ht, hne, habs, hstat, ha]
  · intro habs hstat path hp
    simp [resolveShell, ht, hne, habs, hstat, hp]
  · intro habs hstat hlp
    exact ⟨"shell " ++ s ++ " not found",
      by simp [resolveShell, ht, hne, habs, hstat, hlp]⟩
  · intro lp sh expo hlp
    exact ⟨"shell " ++ sh ++ " not found", by simp [makeService, hlp]⟩

/-! ## Trace invariants -/

theorem spawn_not_flush (c n : String) (env : Option (List String))
    (ds : List String) : Ev.spawn c n env ∉ flushDefers ds := by
  simp [flushDefers]

theorem spawn_not_out (c n : String) (env : Option (List String))
    (cond : Prop) [Decidable cond] (b : List Nat) :
    Ev.spawn c n env ∉ (if cond then [Ev.connData b] else []) := by
  split <;> simp

/-- C9 invariant: the handler's return value can be a non-nil error only if
some cycle's `os.CreateTemp` failed with that error. -/
def Inv9 (cenv : Nat → CycleEnv) (st : St) : Prop :=
  ∀ e, st.mode = Mode.closedConn (some e) →
    ∃ i, (cenv i).tempResult = Except.error e

theorem step_inv9 (s : ServiceCfg) (cenv : Nat → CycleEnv) (st : St)
    (r : ReadResult) (h : Inv9 cenv st) : Inv9 cenv (step s cenv st r) := by
  obtain ⟨mo, cy, ds, evs⟩ := st
  cases mo with
  | closedConn err => exact h
  | awaitMarker =>
    cases r with
    | eofR p => intro e he; simp [step] at he
    | errR p m => intro e he; simp [step] at he
    | ok line =>
      by_cases hm : line.dropLast = []
      · simpa [step, hm] using h
      · rcases htr : (cenv cy).tempResult with m | name
        · intro e he
          simp [step, hm, htr] at he
          exact ⟨cy, by rw [htr, he]⟩
        · intro e he
          simp [step, hm, htr] at he
  | receiving marker name en k =>
    cases r with
    | eofR p => intro e he; simp [step] at he
    | errR p m => intro e he; simp [step] at he
    | ok line =>
      by_cases h1 : trimNL line = marker
      · rcases h2 : en.exec.startOk with _ | _
        · intro e he; simp [step, h1, h2] at he
        · rcases hw : en.exec.waitErr with _ | m <;>
            { intro e he; simp [step, h1, h2, hw] at he }
      · rcases h3 : en.writeOk k with _ | _ <;>
          { intro e he; simp [step, h1, h3] at he }

/-- C1 invariant: every spawn event carries the Service's resolved command
and the `cmd.Env` value built from the exports at service.go:199-207. -/
def Inv1 (s : ServiceCfg) (st : St) : Prop :=
  ∀ c n env, Ev.spawn c n env ∈ st.evs →
    c = s.cmd ∧ env = goAppendNil (exportList s.expo)

theorem step_inv1 (s : ServiceCfg) (cenv : Nat → CycleEnv) (st : St)
    (r : ReadResult) (h : Inv1 s st) : Inv1 s (step s cenv st r) := by
  obtain ⟨mo, cy, ds, evs⟩ := st
  cases mo with
  | closedConn err => exact h
  | awaitMarker =>
    cases r with
    | eofR p =>
      intro c n env he
      simp [step, flushDefers] at he
      exact h c n env he
    | errR p m =>
      intro c n env he
      simp [step, flushDefers] at he
      exact h c n env he
    | ok line =>
      by_cases hm : line.dropLast = []
      · simpa [step, hm] using h
      · rcases htr : (cenv cy).tempResult with m | name
        · intro c n env he
          simp [step, hm, htr, flushDefers] at he
          exact h c n env he
        · intro c n env he
          simp [step, hm, htr] at he
          exact h c n env he
  | receiving marker name en k =>
    cases r with
    | eofR p =>
      intro c n env he
      simp [step, flushDefers] at he
      exact h c n env he
    | errR p m =>
      intro c n env he
      simp [step, flushDefers] at he
      exact h c n env he
    | ok line =>
      by_cases h1 : trimNL line = marker
      · rcases h2 : en.exec.startOk with _ | _
        · intro c n env he
          simp [step, h1, h2, flushDefers] at he
          exact h c n env he
        · rcases hw : en.exec.waitErr with _ | m <;>
          · intro c n env he
            simp [step, h1, h2, hw, flushDefers] at he
            rcases he with he | ⟨hc, hn, henv⟩
            · exact h c n env he
            · rcases ho : en.exec.stdout with _ | _ <;>
                rcases he' : en.exec.stderr with _ | _ <;>
                  simp_all
      · rcases h3 : en.writeOk k with _ | _ <;>
        · intro c n env he
          simp [step, h1, h3, flushDefers] at he
          exact h c n env he

/-! ## C9 and C1 claim statements -/

/-- C9: `HandleConnection` returns a non-nil error only when creating the
spool (temporary) file fails: a non-nil return value is always the error of
some cycle's `os.CreateTemp`. -/
theorem C9_error_only_on_temp_failure (s : ServiceCfg) (cenv : Nat → CycleEnv)
    (reads : List ReadResult) (e : String)
    (h : (run s cenv reads).mode = Mode.closedConn (some e)) :
    ∃ i, (cenv i).tempResult = Except.error e :=
  (foldl_inv (step s cenv) (Inv9 cenv) (step_inv9 s cenv) reads st0
    (fun _ he => nomatch he)) e h

def cfg9 : ServiceCfg := ⟨"sh", []⟩

def cenv9 : Nat → CycleEnv := fun _ =>
  ⟨Except.error "boom", fun _ => true, "w", ⟨true, "s", [], [], none⟩⟩

theorem C9_error_only_on_temp_failure_witness :
    (run cfg9 cenv9 [ReadResult.ok ['M', '\n']]).mode
      = Mode.closedConn (some "boom") ∧
    (cenv9 0).tempResult = Except.error "boom" :=
  ⟨rfl, by
    obtain ⟨i, hi⟩ := C9_error_only_on_temp_failure cfg9 cenv9 [ReadResult.ok ['M', '\n']] "boom" rfl
    exact hi⟩

/-- C1 (amended): for every Service whose exports map is non-empty, every
process spawned by any handler run receives exactly the Service's
`NAME=VALUE` export entries and nothing from the parent's ambient
environment; with an empty exports map the Go nil-slice semantics leave
`cmd.Env` nil and the parent environment is inherited instead. -/
theorem C1_env_exactly_exports_of_nonempty (s : ServiceCfg) (cenv : Nat → CycleEnv)
    (reads : List ReadResult) (c n : String) (env : Option (List String))
    (hexpo : s.expo ≠ [])
    (hmem : Ev.spawn c n env ∈ (run s cenv reads).evs) :
    c = s.cmd ∧
    ∀ parentEnv, effectiveEnv env parentEnv = exportList s.expo := by
  have hinv : Inv1 s (run s cenv reads) :=
    foldl_inv (step s cenv) (Inv1 s) (step_inv1 s cenv) reads st0
      (fun c n env he => by simp [st0] at he)
  obtain ⟨hc, henv⟩ := hinv c n env hmem
  refine ⟨hc, fun parentEnv => ?_⟩
  subst henv
  have hne : (exportList s.expo).isEmpty = false := by
    simp [exportList, List.isEmpty_iff]
    exact hexpo
  simp [goAppendNil, effectiveEnv, hne]

def cexCfg : ServiceCfg := ⟨"sh", []⟩

def cexEnv : Nat → CycleEnv := fun _ =>
  ⟨Except.ok "t0", fun _ => true, "w", ⟨true, "s", [], [], none⟩⟩

def cexReads : List ReadResult :=
  [ReadResult.ok ['M', '\n'], ReadResult.ok ['M', '\n']]

/-- C1 counterexample: with an empty exports map the handler spawns the
process with a nil `cmd.Env` (`append` of zero elements to the nil slice),
so the child inherits the parent's ambient environment instead of receiving
exactly the (empty) configured export set: the claim fails in the
empty-exports case. -/
theorem C1_empty_exports_inherits_parent_env :
    Ev.spawn "sh" "t0" none ∈ (run cexCfg cexEnv cexReads).evs ∧
    effectiveEnv none ["HOME=/root"] = ["HOME=/root"] ∧
    exportList cexCfg.expo = [] ∧
    effectiveEnv none ["HOME=/root"] ≠ exportList cexCfg.expo :=
  ⟨by decide, rfl, rfl, by decide⟩

def w1Cfg : ServiceCfg := ⟨"sh", [("FOO", "bar")]⟩

theorem C1_env_exactly_exports_witness :
    (([("FOO", "bar")] : List (String × String)) ≠ []) ∧
    effectiveEnv (some ["FOO=bar"]) ["HOME=/root"] = exportList w1Cfg.expo :=
  ⟨by decide,
   (C1_env_exactly_exports_of_nonempty w1Cfg cexEnv cexReads "sh" "t0" (some ["FOO=bar"])
      (by decide) (by decide)).2 ["HOME=/root"]⟩

/-! ## C3: spool-file content -/

/-- Projection selecting the lines appended to spool file `name`. -/
def wlData (name : String) : Ev → Option Line
  | .writeLine n l => if n = name then some l else none
  | _ => none

/-- The lines written to spool file `name`, in order; their concatenation
is the file's content. -/
def spoolWrites (name : String) (evs : List Ev) : List Line :=
  evs.filterMap (wlData name)

theorem spoolWrites_map (name : String) (pre : List Line) :
    List.filterMap (wlData name ∘ Ev.writeLine name) pre = pre := by
  induction pre with
  | nil => rfl
  | cons l pre ih => simp [wlData, Function.comp, ih]

/-- Folding the spool loop over non-marker lines with succeeding writes
appends exactly those lines, verbatim, to the spool file. -/
theorem foldPre (s : ServiceCfg) (cenv : Nat → CycleEnv) (M : Line)
    (name : String) (e : CycleEnv) (hw : ∀ j, e.writeOk j = true) :
    ∀ (pre : List Line), (∀ l ∈ pre, trimNL l ≠ M) →
      ∀ (k cy : Nat) (ds : List String) (evs : List Ev),
        (pre.map ReadResult.ok).foldl (step s cenv)
            ⟨.receiving M name e k, cy, ds, evs⟩
          = ⟨.receiving M name e (k + pre.length), cy, ds,
              evs ++ pre.map (Ev.writeLine name)⟩
  | [], _, k, cy, ds, evs => by simp
  | l :: pre, hpre, k, cy, ds, evs => by
    have hl : trimNL l ≠ M := hpre l (List.mem_cons_self _ _)
    have hstep : step s cenv ⟨.receiving M name e k, cy, ds, evs⟩ (.ok l)
        = ⟨.receiving M name e (k + 1), cy, ds,
            evs ++ [Ev.writeLine name l]⟩ := by
      simp [step, hl, hw k]
    rw [List.map_cons, List.foldl_cons, hstep,
      foldPre s cenv M name e hw pre
        (fun x hx => hpre x (List.mem_cons_of_mem _ hx)) (k + 1) cy ds _]
    simp [St.mk.injEq, Mode.receiving.injEq]
    omega

/-- C3: for a cycle with marker `M`, the spool file handed to the
interpreter contains exactly the lines received after the marker line and
before the first line whose content with the trailing newline stripped
equals `M`, in order and byte-for-byte including each line's terminator;
the terminating marker line itself is not written. -/
theorem C3_spool_content (s : ServiceCfg) (cenv : Nat → CycleEnv)
    (M : Line) (name : String) (pre : List Line) (mline : Line)
    (hM : M ≠ []) (htemp : (cenv 0).tempResult = Except.ok name)
    (hw : ∀ j, (cenv 0).writeOk j = true)
    (hpre : ∀ l ∈ pre, trimNL l ≠ M) (hm : trimNL mline = M) :
    spoolWrites name
        (run s cenv (ReadResult.ok (M ++ ['\n'])
          :: (pre ++ [mline]).map ReadResult.ok)).evs
      = pre := by
  have h1 : step s cenv st0 (.ok (M ++ ['\n']))
      = ⟨.receiving M name (cenv 0) 0, 1, [name], [Ev.create name]⟩ := by
    simp [step, st0, hM, htemp]
  rw [run, List.foldl_cons, h1, List.map_append, List.foldl_append,
    foldPre s cenv M name (cenv 0) hw pre hpre 0 1 [name] [Ev.create name]]
  simp only [List.map_cons, List.map_nil, List.foldl_cons, List.foldl_nil]
  rcases h2 : (cenv 0).exec.startOk with _ | _
  · simp [step, hm, h2, spoolWrites, wlData, List.filterMap_append,
      List.filterMap_map, flushDefers, Function.comp, spoolWrites_map]
  · rcases hw2 : (cenv 0).exec.waitErr with _ | m <;>
      rcases ho : (cenv 0).exec.stdout with _ | ⟨x, xs⟩ <;>
      rcases he : (cenv 0).exec.stderr with _ | ⟨y, ys⟩ <;>
      simp [step, hm, h2, hw2, ho, he, spoolWrites, wlData,
        List.filterMap_append, List.filterMap_map, flushDefers,
        Function.comp, spoolWrites_map]

def w3Env : Nat → CycleEnv := fun _ =>
  ⟨Except.ok "t0", fun _ => true, "w", ⟨true, "s", [7], [], none⟩⟩

theorem C3_spool_content_witness :
    (['M'] : Line) ≠ [] ∧
    spoolWrites "t0"
        (run cfg9 w3Env (ReadResult.ok (['M'] ++ ['\n'])
          :: ([['a', '\n'], ['b', '\n']] ++ [['M', '\n']]).map
              ReadResult.ok)).evs
      = [['a', '\n'], ['b', '\n']] :=
  ⟨by decide,
   C3_spool_content cfg9 w3Env ['M'] "t0" [['a', '\n'], ['b', '\n']] ['M', '\n']
     (by decide) rfl (fun j => rfl) (by decide) (by decide)⟩

/-! ## C7: spool-file lifetime and name uniqueness -/

/-- Effect of one trace event on the set of spool files currently on disk
(`os.CreateTemp` creates, `os.Remove` removes; removing an absent file is a
no-op, as the handler's double removal requires). -/
def lstep (l : List String) (ev : Ev) : List String :=
  match ev with
  | .create n => n :: l
  | .remove n => l.erase n
  | _ => l

/-- Spool files on disk after the events `evs`. -/
def live (evs : List Ev) : List String :=
  evs.foldl lstep []

theorem live_append (a b : List Ev) :
    live (a ++ b) = b.foldl lstep (live a) := by
  simp [live, List.foldl_append]

theorem lstep_len_le (l : List String) (ev : Ev)
    (h : ∀ n, ev ≠ Ev.create n) : (lstep l ev).length ≤ l.length := by
  cases ev with
  | create n => exact absurd rfl (h n)
  | remove n => exact (List.erase_sublist _ _).length_le
  | connErr m => exact le_refl _
  | connData b => exact le_refl _
  | writeLine n li => exact le_refl _
  | spawn c n env => exact le_refl _

theorem fold_noCreate_len :
    ∀ (p : List Ev) (L : List String), (∀ n, Ev.create n ∉ p) →
      (p.foldl lstep L).length ≤ L.length
  | [], _, _ => le_refl _
  | ev :: p, L, h => by
    rw [List.foldl_cons]
    refine le_trans (fold_noCreate_len p (lstep L ev) ?_)
      (lstep_len_le L ev ?_)
    · intro n hn
      exact h n (List.mem_cons_of_mem _ hn)
    · intro n hne
      exact h n (hne ▸ List.mem_cons_self _ _)

/-- At every point of the trace, at most one spool file is on disk. -/
def prefOk (evs : List Ev) : Prop :=
  ∀ j, (live (evs.take j)).length ≤ 1

theorem prefOk_append (evs batch : List Ev) (h : prefOk evs)
    (hL : (live evs).length ≤ 1) (hb : ∀ n, Ev.create n ∉ batch) :
    prefOk (evs ++ batch) := by
  intro j
  rw [List.take_append_eq_append_take, live_append]
  by_cases hj : j ≤ evs.length
  · rw [Nat.sub_eq_zero_of_le hj]
    simpa using h j
  · rw [List.take_of_length_le (by omega)]
    refine le_trans (fold_noCreate_len _ _ ?_) hL
    intro n hn
    exact hb n (List.take_subset _ _ hn)

theorem prefOk_append_create (evs : List Ev) (n : String) (h : prefOk evs)
    (hL : live evs = []) : prefOk (evs ++ [Ev.create n]) := by
  intro j
  rw [List.take_append_eq_append_take, live_append]
  by_cases hj : j ≤ evs.length
  · rw [Nat.sub_eq_zero_of_le hj]
    simpa using h j
  · rw [List.take_of_length_le (by omega), hL]
    rcases hjj : j - evs.length with _ | m
    · omega
    · simp [lstep]

theorem fold_flush (ds L : List String) :
    (flushDefers ds).foldl lstep L = ds.foldl (fun l n => l.erase n) L := by
  simp [flushDefers, List.foldl_map, lstep]

theorem eraseFold_nil (ds : List String) :
    ds.foldl (fun l n => l.erase n) ([] : List String) = [] := by
  induction ds with
  | nil => rfl
  | cons d ds ih => simpa using ih

theorem eraseFold_single (ds : List String) (n : String) (h : n ∈ ds) :
    ds.foldl (fun l m => l.erase m) [n] = [] := by
  induction ds with
  | nil => simp at h
  | cons d ds ih =>
    rw [List.foldl_cons]
    by_cases hd : d = n
    · subst hd
      rw [List.erase_cons_head]
      exact eraseFold_nil ds
    · have hnd : n ≠ d := fun hh => hd hh.symm
      have hone : ([n] : List String).erase d = [n] := by
        simp [List.erase_cons, hnd]
      rw [hone]
      refine ih ?_
      rcases List.mem_cons.mp h with h1 | h2
      · exact absurd h1.symm hd
      · exact h2

theorem fold_out (L : List String) (cond : Prop) [Decidable cond]
    (b : List Nat) :
    (if cond then [Ev.connData b] else []).foldl lstep L = L := by
  split <;> rfl

theorem create_not_flush (n : String) (ds : List String) :
    Ev.create n ∉ flushDefers ds := by
  simp [flushDefers]

theorem create_not_out (n : String) (cond : Prop) [Decidable cond]
    (b : List Nat) : Ev.create n ∉ (if cond then [Ev.connData b] else []) := by
  split <;> simp

/-- Mode/live-file correlation: a handler in the spool loop has exactly its
cycle's file on disk (registered for deferred removal); otherwise no file
of this connection remains. -/
def ModeLive (st : St) : Prop :=
  match st.mode with
  | .receiving _ n _ _ => live st.evs = [n] ∧ n ∈ st.defs
  | _ => live st.evs = []

def Inv7 (st : St) : Prop := prefOk st.evs ∧ ModeLive st

theorem step_inv7 (s : ServiceCfg) (cenv : Nat → CycleEnv) (st : St)
    (r : ReadResult) (h : Inv7 st) : Inv7 (step s cenv st r) := by
  obtain ⟨hpre, hml⟩ := h
  obtain ⟨mo, cy, ds, evs⟩ := st
  cases mo with
  | closedConn err => exact ⟨hpre, hml⟩
  | awaitMarker =>
    have hLive : live evs = [] := hml
    cases r with
    | eofR p =>
      refine ⟨prefOk_append evs _ hpre (by rw [hLive]; exact Nat.zero_le 1)
        (fun n => create_not_flush n ds), ?_⟩
      show live (evs ++ flushDefers ds) = []
      rw [live_append, hLive, fold_flush]
      exact eraseFold_nil ds
    | errR p m =>
      rw [show (step s cenv ⟨.awaitMarker, cy, ds, evs⟩ (.errR p m))
          = ⟨.closedConn none, cy, ds,
              evs ++ ([Ev.connErr ("error: failed to read EOF marker: "
                ++ m)] ++ flushDefers ds)⟩ from by
        simp [step]]
      refine ⟨prefOk_append evs _ hpre (by rw [hLive]; exact Nat.zero_le 1)
        (fun n hn => by simp [flushDefers] at hn), ?_⟩
      show live _ = []
      rw [live_append, hLive]
      show (flushDefers ds).foldl lstep (lstep [] _) = []
      rw [show lstep ([] : List String)
          (Ev.connErr ("error: failed to read EOF marker: " ++ m)) = []
        from rfl, fold_flush]
      exact eraseFold_nil ds
    | ok line =>
      by_cases hm : line.dropLast = []
      · rw [show (step s cenv ⟨.awaitMarker, cy, ds, evs⟩ (.ok line))
            = ⟨.awaitMarker, cy, ds, evs⟩ from by simp [step, hm]]
        exact ⟨hpre, hml⟩
      · rcases htr : (cenv cy).tempResult with m | name
        · rw [show (step s cenv ⟨.awaitMarker, cy, ds, evs⟩ (.ok line))
              = ⟨.closedConn (some m), cy, ds,
                  evs ++ ([Ev.connErr ("error: failed to create temp file: "
                    ++ m)] ++ flushDefers ds)⟩ from by
            simp [step, hm, htr]]
          refine ⟨prefOk_append evs _ hpre
            (by rw [hLive]; exact Nat.zero_le 1)
            (fun n hn => by simp [flushDefers] at hn), ?_⟩
          show live _ = []
          rw [live_append, hLive]
          show (flushDefers ds).foldl lstep (lstep [] _) = []
          rw [show lstep ([] : List String)
              (Ev.connErr ("error: failed to create temp file: " ++ m)) = []
            from rfl, fold_flush]
          exact eraseFold_nil ds
        · rw [show (step s cenv ⟨.awaitMarker, cy, ds, evs⟩ (.ok line))
              = ⟨.receiving line.dropLast name (cenv cy) 0, cy + 1,
                  name :: ds, evs ++ [Ev.create name]⟩ from by
            simp [step, hm, htr]]
          refine ⟨prefOk_append_create evs name hpre hLive, ?_, ?_⟩
          · show live (evs ++ [Ev.create name]) = [name]
            rw [live_append, hLive]
            rfl
          · exact List.mem_cons_self _ _
  | receiving marker name e k =>
    have hLive : live evs = [name] := hml.1
    have hmem : name ∈ ds := hml.2
    cases r with
    | eofR p =>
      refine ⟨prefOk_append evs _ hpre (by rw [hLive]; exact le_refl 1)
        (fun n => create_not_flush n ds), ?_⟩
      show live (evs ++ flushDefers ds) = []
      rw [live_append, hLive, fold_flush]
      exact eraseFold_single ds name hmem
    | errR p m =>
      rw [show (step s cenv ⟨.receiving marker name e k, cy, ds, evs⟩
            (.errR p m))
          = ⟨.closedConn none, cy, ds,
              evs ++ ([Ev.connErr ("error: failed to read script: " ++ m)]
                ++ flushDefers ds)⟩ from by simp [step]]
      refine ⟨prefOk_append evs _ hpre (by rw [hLive]; exact le_refl 1)
        (fun n hn => by simp [flushDefers] at hn), ?_⟩
      show live _ = []
      rw [live_append, hLive]
      show (flushDefers ds).foldl lstep (lstep [name] _) = []
      rw [show lstep ([name] : List String)
          (Ev.connErr ("error: failed to read script: " ++ m)) = [name]
        from rfl, fold_flush]
      exact eraseFold_single ds name hmem
    | ok line =>
      by_cases h1 : trimNL line = marker
      · rcases h2 : e.exec.startOk with _ | _
        · rw [show (step s cenv ⟨.receiving marker name e k, cy, ds, evs⟩
                (.ok line))
              = ⟨.closedConn none, cy, ds,
                  evs ++ ([Ev.connErr ("error: failed to start shell: "
                    ++ e.exec.startMsg)] ++ flushDefers ds)⟩ from by
            simp [step, h1, h2]]
          refine ⟨prefOk_append evs _ hpre (by rw [hLive]; exact le_refl 1)
            (fun n hn => by simp [flushDefers] at hn), ?_⟩
          show live _ = []
          rw [live_append, hLive]
          show (flushDefers ds).foldl lstep (lstep [name] _) = []
          rw [show lstep ([name] : List String)
              (Ev.connErr ("error: failed to start shell: "
                ++ e.exec.startMsg)) = [name] from rfl, fold_flush]
          exact eraseFold_single ds name hmem
        · rcases hw : e.exec.waitErr with _ | m
          · rw [show (step s cenv ⟨.receiving marker name e k, cy, ds, evs⟩
                  (.ok line))
                = ⟨.closedConn none, cy, ds,
                    evs ++ ([Ev.spawn s.cmd name
                        (goAppendNil (exportList s.expo))]
                      ++ ((if 0 < e.exec.stdout.length
                          then [Ev.connData e.exec.stdout] else [])
                      ++ ((if 0 < e.exec.stderr.length
                          then [Ev.connData e.exec.stderr] else [])
                      ++ ([Ev.remove name] ++ flushDefers ds))))⟩ from by
              simp [step, h1, h2, hw, List.append_assoc]]
            refine ⟨prefOk_append evs _ hpre
              (by rw [hLive]; exact le_refl 1) (fun n hn => ?_), ?_⟩
            · simp [List.mem_append, flushDefers, create_not_out] at hn
            · show live _ = []
              rw [live_append, hLive]
              simp only [List.foldl_append, fold_out, List.foldl_cons,
                List.foldl_nil, lstep]
              rw [List.erase_cons_head, fold_flush]
              exact eraseFold_nil ds
          · rw [show (step s cenv ⟨.receiving marker name e k, cy, ds, evs⟩
                  (.ok line))
                = ⟨.awaitMarker, cy, ds,
                    evs ++ ([Ev.spawn s.cmd name
                        (goAppendNil (exportList s.expo))]
                      ++ ((if 0 < e.exec.stdout.length
                          then [Ev.connData e.exec.stdout] else [])
                      ++ ((if 0 < e.exec.stderr.length
                          then [Ev.connData e.exec.stderr] else [])
                      ++ ([Ev.remove name]
                      ++ [Ev.connErr ("error: script execution failed: "
                            ++ m)]))))⟩ from by
              simp [step, h1, h2, hw, List.append_assoc]]
            refine ⟨prefOk_append evs _ hpre
              (by rw [hLive]; exact le_refl 1) (fun n hn => ?_), ?_⟩
            · simp [List.mem_append, flushDefers, create_not_out] at hn
            · show live _ = []
              rw [live_append, hLive]
              simp only [List.foldl_append, fold_out, List.foldl_cons,
                List.foldl_nil, lstep]
              rw [List.erase_cons_head]
      · rcases h3 : e.writeOk k with _ | _
        · rw [show (step s cenv ⟨.receiving marker name e k, cy, ds, evs⟩
                (.ok line))
              = ⟨.closedConn none, cy, ds,
                  evs ++ ([Ev.connErr ("error: failed to write script: "
                    ++ e.writeMsg)] ++ flushDefers ds)⟩ from by
            simp [step, h1, h3]]
          refine ⟨prefOk_append evs _ hpre (by rw [hLive]; exact le_refl 1)
            (fun n hn => by simp [flushDefers] at hn), ?_⟩
          show live _ = []
          rw [live_append, hLive]
          show (flushDefers ds).foldl lstep (lstep [name] _) = []
          rw [show lstep ([name] : List String)
              (Ev.connErr ("error: failed to write script: " ++ e.writeMsg))
              = [name] from rfl, fold_flush]
          exact eraseFold_single ds name hmem
        · rw [show (step s cenv ⟨.receiving marker name e k, cy, ds, evs⟩
                (.ok line))
              = ⟨.receiving marker name e (k + 1), cy, ds,
                  evs ++ [Ev.writeLine name line]⟩ from by
            simp [step, h1, h3]]
          refine ⟨prefOk_append evs _ hpre (by rw [hLive]; exact le_refl 1)
            (fun n hn => by simp at hn), ?_, hmem⟩
          show live (evs ++ [Ev.writeLine name line]) = [name]
          rw [live_append, hLive]
          rfl

/-- Projection selecting spool-file creations. -/
def cnData : Ev → Option String
  | .create n => some n
  | _ => none

/-- The spool-file names created during a trace, in creation order. -/
def createdNames (evs : List Ev) : List String :=
  evs.filterMap cnData

theorem created_append (a b : List Ev) :
    createdNames (a ++ b) = createdNames a ++ createdNames b := by
  simp [createdNames]

theorem created_flush (ds : List String) :
    createdNames (flushDefers ds) = [] := by
  induction ds with
  | nil => rfl
  | cons d ds ih => simp [flushDefers, createdNames, cnData, ih]

theorem created_out (cond : Prop) [Decidable cond] (b : List Nat) :
    createdNames (if cond then [Ev.connData b] else []) = [] := by
  split <;> rfl

theorem created_cons_connErr (m : String) (l : List Ev) :
    createdNames (Ev.connErr m :: l) = createdNames l := by
  simp [createdNames, cnData]

theorem created_cons_connData (b : List Nat) (l : List Ev) :
    createdNames (Ev.connData b :: l) = createdNames l := by
  simp [createdNames, cnData]

theorem created_cons_write (n : String) (li : Line) (l : List Ev) :
    createdNames (Ev.writeLine n li :: l) = createdNames l := by
  simp [createdNames, cnData]

theorem created_cons_remove (n : String) (l : List Ev) :
    createdNames (Ev.remove n :: l) = createdNames l := by
  simp [createdNames, cnData]

theorem created_cons_spawn (c n : String) (env : Option (List String))
    (l : List Ev) : createdNames (Ev.spawn c n env :: l) = createdNames l := by
  simp [createdNames, cnData]

theorem created_cons_create (n : String) (l : List Ev) :
    createdNames (Ev.create n :: l) = n :: createdNames l := by
  simp [createdNames, cnData]

theorem created_nil : createdNames [] = [] := rfl

/-- Each step either creates no spool file (and leaves the cycle counter
alone) or creates exactly the file named by the current cycle's
`os.CreateTemp` and advances the counter. -/
theorem step_created (s : ServiceCfg) (cenv : Nat → CycleEnv) (st : St)
    (r : ReadResult) :
    (createdNames (step s cenv st r).evs = createdNames st.evs ∧
     (step s cenv st r).cycle = st.cycle) ∨
    ((step s cenv st r).cycle = st.cycle + 1 ∧
     ∃ name, (cenv st.cycle).tempResult = Except.ok name ∧
       createdNames (step s cenv st r).evs
         = createdNames st.evs ++ [name]) := by
  obtain ⟨mo, cy, ds, evs⟩ := st
  cases mo with
  | closedConn err => exact Or.inl ⟨rfl, rfl⟩
  | awaitMarker =>
    cases r with
    | eofR p =>
      exact Or.inl ⟨by simp [step, created_append, created_flush, created_out, created_cons_connErr, created_cons_connData, created_cons_write, created_cons_remove, created_cons_spawn, created_cons_create, created_nil], rfl⟩
    | errR p m =>
      exact Or.inl ⟨by simp [step, created_append, created_flush, created_out, created_cons_connErr, created_cons_connData, created_cons_write, created_cons_remove, created_cons_spawn, created_cons_create, created_nil], rfl⟩
    | ok line =>
      by_cases hm : line.dropLast = []
      · exact Or.inl ⟨by simp [step, hm], by simp [step, hm]⟩
      · rcases htr : (cenv cy).tempResult with m | name
        · refine Or.inl ⟨by simp [step, hm, htr, created_append, created_flush, created_out, created_cons_connErr, created_cons_connData, created_cons_write, created_cons_remove, created_cons_spawn, created_cons_create, created_nil],
            by simp [step, hm, htr]⟩
        · refine Or.inr ⟨by simp [step, hm, htr], name, rfl, ?_⟩
          simp [step, hm, htr, created_append, created_flush, created_out, created_cons_connErr, created_cons_connData, created_cons_write, created_cons_remove, created_cons_spawn, created_cons_create, created_nil]
  | receiving marker name e k =>
    cases r with
    | eofR p =>
      exact Or.inl ⟨by simp [step, created_append, created_flush, created_out, created_cons_connErr, created_cons_connData, created_cons_write, created_cons_remove, created_cons_spawn, created_cons_create, created_nil], rfl⟩
    | errR p m =>
      exact Or.inl ⟨by simp [step, created_append, created_flush, created_out, created_cons_connErr, created_cons_connData, created_cons_write, created_cons_remove, created_cons_spawn, created_cons_create, created_nil], rfl⟩
    | ok line =>
      by_cases h1 : trimNL line = marker
      · rcases h2 : e.exec.startOk with _ | _
        · exact Or.inl ⟨by simp [step, h1, h2, created_append, created_flush, created_out, created_cons_connErr, created_cons_connData, created_cons_write, created_cons_remove, created_cons_spawn, created_cons_create, created_nil], by simp [step, h1, h2]⟩
        · rcases hw : e.exec.waitErr with _ | m <;>
            exact Or.inl ⟨by simp [step, h1, h2, hw, created_append, created_flush, created_out, created_cons_connErr, created_cons_connData, created_cons_write, created_cons_remove, created_cons_spawn, created_cons_create, created_nil],
              by simp [step, h1, h2, hw]⟩
      · rcases h3 : e.writeOk k with _ | _ <;>
          exact Or.inl ⟨by simp [step, h1, h3, created_append, created_flush, created_out, created_cons_connErr, created_cons_connData, created_cons_write, created_cons_remove, created_cons_spawn, created_cons_create, created_nil], by simp [step, h1, h3]⟩

/-- Every created spool-file name was handed out by some cycle's
`os.CreateTemp`. -/
def InvNames (cenv : Nat → CycleEnv) (st : St) : Prop :=
  ∀ n, n ∈ createdNames st.evs → ∃ i, (cenv i).tempResult = Except.ok n

theorem step_invNames (s : ServiceCfg) (cenv : Nat → CycleEnv) (st : St)
    (r : ReadResult) (h : InvNames cenv st) :
    InvNames cenv (step s cenv st r) := by
  rcases step_created s cenv st r with ⟨heq, _⟩ | ⟨_, name, htr, heq⟩
  · intro n hn
    rw [heq] at hn
    exact h n hn
  · intro n hn
    rw [heq] at hn
    rcases List.mem_append.mp hn with h1 | h2
    · exact h n h1
    · rw [List.mem_singleton.mp h2]
      exact ⟨st.cycle, htr⟩

/-- `os.CreateTemp` contract: distinct calls hand out distinct names. -/
def Fresh (cenv : Nat → CycleEnv) : Prop :=
  ∀ i j n, i ≠ j → (cenv i).tempResult = Except.ok n →
    (cenv j).tempResult ≠ Except.ok n

/-- With a fresh name supply, the created names are pairwise distinct and
each comes from a cycle index already consumed. -/
def InvC (cenv : Nat → CycleEnv) (st : St) : Prop :=
  (createdNames st.evs).Nodup ∧
  ∀ n, n ∈ createdNames st.evs →
    ∃ i, i < st.cycle ∧ (cenv i).tempResult = Except.ok n

theorem step_invC (s : ServiceCfg) (cenv : Nat → CycleEnv) (st : St)
    (r : ReadResult) (hfresh : Fresh cenv) (h : InvC cenv st) :
    InvC cenv (step s cenv st r) := by
  obtain ⟨hnd, hbound⟩ := h
  rcases step_created s cenv st r with ⟨heq, hcy⟩ | ⟨hcy, name, htr, heq⟩
  · refine ⟨by rw [heq]; exact hnd, fun n hn => ?_⟩
    rw [heq] at hn
    rw [hcy]
    exact hbound n hn
  · have hnot : name ∉ createdNames st.evs := by
      intro hmem
      obtain ⟨i, hlt, hi⟩ := hbound name hmem
      exact hfresh i st.cycle name (Nat.ne_of_lt hlt) hi htr
    refine ⟨?_, fun n hn => ?_⟩
    · rw [heq]
      exact List.nodup_append.mpr ⟨hnd, List.nodup_singleton name,
        fun a ha hb => hnot (List.mem_singleton.mp hb ▸ ha)⟩
    · rw [heq] at hn
      rw [hcy]
      rcases List.mem_append.mp hn with h1 | h2
      · obtain ⟨i, hlt, hi⟩ := hbound n h1
        exact ⟨i, by omega, hi⟩
      · rw [List.mem_singleton.mp h2]
        exact ⟨st.cycle, Nat.lt_succ_self _, htr⟩

/-- C7: along any handler run, at most one spool file of that connection
exists at every point of the trace; with `os.CreateTemp`'s freshness
contract the names created across the cycles of one connection are pairwise
distinct, and two connections drawing from disjoint name supplies never
share a spool-file name. -/
theorem C7_spool_unique (s1 s2 : ServiceCfg) (cenv1 cenv2 : Nat → CycleEnv)
    (reads1 reads2 : List ReadResult)
    (hfresh : Fresh cenv1)
    (hdisj : ∀ n, (∃ i, (cenv1 i).tempResult = Except.ok n) →
      (∃ j, (cenv2 j).tempResult = Except.ok n) → False) :
    (∀ j, (live ((run s1 cenv1 reads1).evs.take j)).length ≤ 1) ∧
    (createdNames (run s1 cenv1 reads1).evs).Nodup ∧
    (∀ n, n ∈ createdNames (run s1 cenv1 reads1).evs →
      n ∈ createdNames (run s2 cenv2 reads2).evs → False) := by
  have h7 : Inv7 (run s1 cenv1 reads1) :=
    foldl_inv (step s1 cenv1) Inv7
      (fun st r hh => step_inv7 s1 cenv1 st r hh) reads1 st0
      ⟨fun j => by simp [live, st0], rfl⟩
  have hc : InvC cenv1 (run s1 cenv1 reads1) :=
    foldl_inv (step s1 cenv1) (InvC cenv1)
      (fun st r hh => step_invC s1 cenv1 st r hfresh hh) reads1 st0
      ⟨List.nodup_nil, fun n hn => by simp [createdNames, st0] at hn⟩
  have hn1 : InvNames cenv1 (run s1 cenv1 reads1) :=
    foldl_inv (step s1 cenv1) (InvNames cenv1)
      (fun st r hh => step_invNames s1 cenv1 st r hh) reads1 st0
      (fun n hn => by simp [createdNames, st0] at hn)
  have hn2 : InvNames cenv2 (run s2 cenv2 reads2) :=
    foldl_inv (step s2 cenv2) (InvNames cenv2)
      (fun st r hh => step_invNames s2 cenv2 st r hh) reads2 st0
      (fun n hn => by simp [createdNames, st0] at hn)
  exact ⟨h7.1, hc.1, fun n ha hb => hdisj n (hn1 n ha) (hn2 n hb)⟩

def nameA (i : Nat) : String := ⟨List.replicate (i + 1) 'a'⟩

def nameB (i : Nat) : String := ⟨List.replicate (i + 1) 'b'⟩

def w7EnvA : Nat → CycleEnv := fun i =>
  ⟨Except.ok (nameA i), fun _ => true, "w", ⟨true, "s", [], [], none⟩⟩

def w7EnvB : Nat → CycleEnv := fun i =>
  ⟨Except.ok (nameB i), fun _ => true, "w", ⟨true, "s", [], [], none⟩⟩

theorem freshA : Fresh w7EnvA := by
  intro i j n hij hi hj
  apply hij
  simp only [w7EnvA, Except.ok.injEq] at hi hj
  have h3 : nameA i = nameA j := hi.trans hj.symm
  have h4 : List.replicate (i + 1) 'a' = List.replicate (j + 1) 'a' :=
    congrArg String.data h3
  have h5 := congrArg List.length h4
  simp at h5
  omega

theorem disjAB : ∀ n, (∃ i, (w7EnvA i).tempResult = Except.ok n) →
    (∃ j, (w7EnvB j).tempResult = Except.ok n) → False := by
  rintro n ⟨i, hi⟩ ⟨j, hj⟩
  simp only [w7EnvA, w7EnvB, Except.ok.injEq] at hi hj
  have h3 : nameA i = nameB j := hi.trans hj.symm
  have h4 := congrArg String.data h3
  simp [nameA, nameB, List.replicate_succ] at h4

theorem C7_spool_unique_witness :
    (live ((run cfg9 w7EnvA [ReadResult.ok ['M', '\n']]).evs.take 1)).length
      ≤ 1 ∧
    ("a" ∈ createdNames (run cfg9 w7EnvA [ReadResult.ok ['M', '\n']]).evs) ∧
    ("a" ∈ createdNames (run cfg9 w7EnvB [ReadResult.ok ['M', '\n']]).evs
      → False) :=
  ⟨(C7_spool_unique cfg9 cfg9 w7EnvA w7EnvB [ReadResult.ok ['M', '\n']]
      [ReadResult.ok ['M', '\n']] freshA disjAB).1 1,
   by decide,
   fun h => (C7_spool_unique cfg9 cfg9 w7EnvA w7EnvB [ReadResult.ok ['M', '\n']]
      [ReadResult.ok ['M', '\n']] freshA disjAB).2.2 "a" (by decide) h⟩

/-! ## Witness inputs for the step-level claims -/

def wCe : CycleEnv :=
  ⟨Except.ok "t0", fun _ => true, "w",
   ⟨true, "s", [1], [2], some "exit status 1"⟩⟩

def wCenv : Nat → CycleEnv := fun _ => wCe

def wSt : St := ⟨.receiving ['M'] "t0" wCe 0, 1, ["t0"], []⟩

theorem C2_exit_status_decision_witness :
    (step cfg9 wCenv wSt (.ok ['M', '\n'])).mode = Mode.awaitMarker ∧
    Ev.connErr ("error: script execution failed: " ++ "exit status 1")
      ∈ (step cfg9 wCenv wSt (.ok ['M', '\n'])).evs :=
  (C2_exit_status_decision cfg9 wCenv wSt ['M'] "t0" wCe 0 ['M', '\n'] rfl
    (by decide) rfl).1 "exit status 1" rfl

theorem C4_read_failure_closes_witness :
    (step cfg9 wCenv wSt (.eofR ['x'])).mode = Mode.closedConn none ∧
    (step cfg9 wCenv wSt (.eofR ['x'])).evs
      = wSt.evs ++ flushDefers wSt.defs :=
  (C4_read_failure_closes cfg9 wCenv wSt ['x'] "m"
    (Or.inr ⟨['M'], "t0", wCe, 0, rfl⟩)).1

theorem C5_cancellation_returns_nil_witness :
    listenAndServe none
      [(AcceptRes.aerr "accept failed", false), (AcceptRes.conn 0, true)]
      = some none :=
  C5_cancellation_returns_nil _ (by decide)

theorem C6_relay_order_witness :
    dataEvents (step cfg9 wCenv wSt (.ok ['M', '\n'])).evs
      = dataEvents wSt.evs
        ++ (if wCe.exec.stdout = [] then [] else [wCe.exec.stdout])
        ++ (if wCe.exec.stderr = [] then [] else [wCe.exec.stderr]) :=
  C6_relay_order cfg9 wCenv wSt ['M'] "t0" wCe 0 ['M', '\n'] rfl
    (by decide) rfl

def fs8 : FS :=
  ⟨fun _ => StatRes.notExist,
   fun s => if s = "zsh" then some "/usr/bin/zsh" else none,
   fun _ => none⟩

theorem C8_shell_resolution_witness :
    goTrimSpace "zsh" = "zsh" ∧
    resolveShell fs8 "zsh" = Except.ok "/usr/bin/zsh" :=
  ⟨by decide,
   (C8_shell_resolution fs8 "zsh" (by decide) (by decide)).2.2.1
     (by decide) rfl "/usr/bin/zsh" (by decide)⟩

theorem C10_partial_line_discarded_witness :
    step cfg9 wCenv wSt (.eofR ['p']) = step cfg9 wCenv wSt (.eofR ['q']) ∧
    (step cfg9 wCenv wSt (.eofR ['p'])).mode = Mode.closedConn none ∧
    (step cfg9 wCenv wSt (.eofR ['p'])).evs
      = wSt.evs ++ flushDefers wSt.defs :=
  C10_partial_line_discarded cfg9 wCenv wSt ['p'] ['q']
    (Or.inr ⟨['M'], "t0", wCe, 0, rfl⟩)

end Relay
